import Mathlib

/-!
Verification of the Rotosolve/Rotoselect optimizer from the
`tutorial_rotoselect` demo (`demo.py`).

The Python source mutates a parameter array in place and calls a
black-box cost oracle.  The embedding below threads the array (a
`List α`) explicitly and additionally records the sequence of
arguments passed to the oracle, so that oracle-call counts are part of
the result.  The scalar type, `np.arctan2` and `np.pi` are parameters
of the embedding; theorems about the value range instantiate them with
`ℝ`, the `Complex.arg`-based two-argument arctangent and `Real.pi`.
-/

namespace RotoselectDemo

/-- Gates queued by `RGen` (`qml.RX` / `qml.RY` / `qml.RZ`, each with a
rotation parameter and a wire index). -/
inductive Gate (α : Type) where
  | RX : α → ℕ → Gate α
  | RY : α → ℕ → Gate α
  | RZ : α → ℕ → Gate α
deriving DecidableEq

/-- Embedding of `RGen(param, generator, wires)`: the `if/elif/elif`
chain queues one rotation gate for the tags "X", "Y" and "Z"; for any
other tag no branch fires, so no gate at all is queued (the returned
operation list is empty). -/
def RGen {α : Type} (param : α) (generator : String) (wires : ℕ) : List (Gate α) :=
  if generator = "X" then [Gate.RX param wires]
  else if generator = "Y" then [Gate.RY param wires]
  else if generator = "Z" then [Gate.RZ param wires]
  else []

section Core

variable {α : Type} [LinearOrderedField α]

/-- Embedding of `opt_theta(d, params, cost)` (Rotosolve parameter
update).  The Python function sets `params[d]` to `0`, `π/2`, `-π/2`
in sequence, calling `cost` after each assignment, computes
`a = arctan2(2*M_0 - M_0_plus - M_0_minus, M_0_plus - M_0_minus)`,
writes `params[d] = -π/2 - a` and finally adds `2π` when the written
value is `≤ -π` (for an in-range `d` the read-back `params[d]` after
the write is exactly the written value `v`; out-of-range Python
indices are modelled separately by `opt_theta_ix`).  The result is the
updated list together with the list of arguments passed to `cost`. -/
def opt_theta (atan2 : α → α → α) (pi : α) (d : ℕ) (params : List α)
    (cost : List α → α) : List α × List (List α) :=
  let p1 := params.set d 0
  let M0 := cost p1
  let p2 := p1.set d (pi / 2)
  let Mp := cost p2
  let p3 := p2.set d (-(pi / 2))
  let Mm := cost p3
  let a := atan2 (2 * M0 - Mp - Mm) (Mp - Mm)
  let v := -(pi / 2) - a
  let p4 := p3.set d v
  (if v ≤ -pi then p4.set d (v + 2 * pi) else p4, [p1, p2, p3])

/-- Embedding of `rotosolve_cycle(cost, params)`: apply `opt_theta` to
every index `d` in `range(len(params))` in order, each step seeing the
list already updated by the previous steps. -/
def rotosolve_cycle (atan2 : α → α → α) (pi : α) (cost : List α → α)
    (params : List α) : List α :=
  (List.range params.length).foldl (fun p d => (opt_theta atan2 pi d p cost).1) params

/-- Embedding of the Rotosolve driver loop
(`for i in range(n_steps): costs.append(cost(params)); params = rotosolve_cycle(...)`).
Returns the recorded cost trajectory and the final parameter list. -/
def costs_rotosolve (atan2 : α → α → α) (pi : α) (cost : List α → α) :
    ℕ → List α → List α × List α
  | 0, params => ([], params)
  | n + 1, params =>
    let c := cost params
    let r := costs_rotosolve atan2 pi cost n (rotosolve_cycle atan2 pi cost params)
    (c :: r.1, r.2)

/-- Embedding of `rotosolve(d, params, generators, cost, M_0)` (the
Rotoselect parameter update with a precomputed baseline `M_0`).  It
probes `params[d] = π/2` and `-π/2`, commits the closed-form optimum
normalised into `(-π, π]`, and then evaluates and returns the cost of
the committed configuration.  The result is the updated list, the
returned cost value, and the list of `(params, generators)` arguments
passed to `cost`. -/
def rotosolve (atan2 : α → α → α) (pi : α) (d : ℕ) (params : List α)
    (generators : List String) (cost : List α → List String → α) (M0 : α) :
    List α × α × List (List α × List String) :=
  let p1 := params.set d (pi / 2)
  let Mp := cost p1 generators
  let p2 := p1.set d (-(pi / 2))
  let Mm := cost p2 generators
  let a := atan2 (2 * M0 - Mp - Mm) (Mp - Mm)
  let v := -(pi / 2) - a
  let p3 := p2.set d v
  let p4 := if v ≤ -pi then p3.set d (v + 2 * pi) else p3
  (p4, cost p4 generators, [(p1, generators), (p2, generators), (p4, generators)])

/-- Result of `optimal_theta_and_gen_helper`: the returned pair
`(params_opt_d, generators_opt_d)` plus the in-place state of the
mutated `params` / `generators` arrays when the helper returns, and
the accumulated oracle-call trace. -/
structure HelperResult (α : Type) where
  opt_d : α
  gen_d : String
  params : List α
  gens : List String
  callArgs : List (List α × List String)

/-- Embedding of `optimal_theta_and_gen_helper(d, params, generators, cost)`.
The Python `for generator in ["X", "Y", "Z"]` loop is unrolled over
the literal three-element list.  Each iteration writes the candidate
tag into `generators[d]`, runs `rotosolve` on the current in-place
state, and replaces the incumbent `(params_opt_d, params_opt_cost,
generators_opt_d)` when `generator == "X" or params_cost <=
params_opt_cost` (for the first iteration the tag is "X", so the
incumbent is unconditionally initialised there; for "Y" and "Z" the
condition reduces to the cost comparison). -/
def optimal_theta_and_gen_helper (atan2 : α → α → α) (pi : α) (d : ℕ)
    (params : List α) (generators : List String)
    (cost : List α → List String → α) : HelperResult α :=
  let p0 := params.set d 0
  let M0 := cost p0 generators
  let gX := generators.set d "X"
  let rX := rotosolve atan2 pi d p0 gX cost M0
  let incX : α × α × String := (rX.1.getD d 0, rX.2.1, "X")
  let gY := gX.set d "Y"
  let rY := rotosolve atan2 pi d rX.1 gY cost M0
  let incY : α × α × String :=
    if rY.2.1 ≤ incX.2.1 then (rY.1.getD d 0, rY.2.1, "Y") else incX
  let gZ := gY.set d "Z"
  let rZ := rotosolve atan2 pi d rY.1 gZ cost M0
  let incZ : α × α × String :=
    if rZ.2.1 ≤ incY.2.1 then (rZ.1.getD d 0, rZ.2.1, "Z") else incY
  { opt_d := incZ.1
    gen_d := incZ.2.2
    params := rZ.1
    gens := gZ
    callArgs := (p0, generators) :: (rX.2.2 ++ rY.2.2 ++ rZ.2.2) }

/-- One iteration of the `rotoselect_cycle` loop body:
`params[d], generators[d] = optimal_theta_and_gen_helper(d, params, generators, cost)`.
The right-hand side first mutates the arrays in place (probing), then
the tuple assignment overwrites entry `d` of each with the winning
candidate's values. -/
def rsel_step (atan2 : α → α → α) (pi : α) (cost : List α → List String → α)
    (pg : List α × List String) (d : ℕ) : List α × List String :=
  let h := optimal_theta_and_gen_helper atan2 pi d pg.1 pg.2 cost
  (h.params.set d h.opt_d, h.gens.set d h.gen_d)

/-- Embedding of `rotoselect_cycle(cost, params, generators)`: apply
`rsel_step` to every index `d` in `range(len(params))` in order. -/
def rotoselect_cycle (atan2 : α → α → α) (pi : α)
    (cost : List α → List String → α) (params : List α)
    (generators : List String) : List α × List String :=
  (List.range params.length).foldl (rsel_step atan2 pi cost) (params, generators)

/-- Embedding of the Rotoselect driver loop
(`for _ in range(n_steps): costs_rsel.append(cost(params, generators)); params, generators = rotoselect_cycle(...)`).
Returns the recorded cost trajectory and the final state. -/
def costs_rsel (atan2 : α → α → α) (pi : α) (cost : List α → List String → α) :
    ℕ → List α × List String → List α × (List α × List String)
  | 0, pg => ([], pg)
  | n + 1, pg =>
    let c := cost pg.1 pg.2
    let r := costs_rsel atan2 pi cost n
      (rotoselect_cycle atan2 pi cost pg.1 pg.2)
    (c :: r.1, r.2)

/-- Python/NumPy indexing semantics for a 1-D array of length `len`
indexed by a (possibly negative) Python integer `d`: indices in
`[0, len)` resolve to themselves, indices in `[-len, 0)` wrap around
to `len + d`, and anything else raises `IndexError` (modelled as
`none`). -/
def npIndex (len : ℕ) (d : ℤ) : Option ℕ :=
  if 0 ≤ d then (if d < (len : ℤ) then some d.toNat else none)
  else (if -(len : ℤ) ≤ d then some (d + (len : ℤ)).toNat else none)

/-- `opt_theta` as invoked with a raw Python integer index.  The first
statement of the Python function, `params[d] = 0.0`, raises
`IndexError` exactly when `npIndex` yields `none` (before any oracle
call); otherwise every subsequent access to `params[d]` resolves to
the same in-range position and the update runs as `opt_theta`. -/
def opt_theta_ix (atan2 : α → α → α) (pi : α) (d : ℤ) (params : List α)
    (cost : List α → α) : Option (List α) :=
  match npIndex params.length d with
  | none => none
  | some i => some (opt_theta atan2 pi i params cost).1

/-- Normalisation applied to the closed-form optimum: write
`v = -π/2 - a` and add `2π` exactly when `v ≤ -π` (proof-layer
abbreviation of the shared tail of `opt_theta` and `rotosolve`). -/
def commit (pi a : α) : α :=
  if -(pi / 2) - a ≤ -pi then -(pi / 2) - a + 2 * pi else -(pi / 2) - a

/-- Closed-form angle argument computed by `rotosolve` from the probe
values at `params[d] = π/2` and `params[d] = -π/2` and the supplied
baseline `M0` (proof-layer abbreviation). -/
def cand_a (atan2 : α → α → α) (pi : α) (d : ℕ) (params : List α)
    (gens : List String) (cost : List α → List String → α) (M0 : α) : α :=
  atan2
    (2 * M0 - cost (params.set d (pi / 2)) gens - cost (params.set d (-(pi / 2))) gens)
    (cost (params.set d (pi / 2)) gens - cost (params.set d (-(pi / 2))) gens)

/-- Angle committed into `params[d]` by `rotosolve` (proof-layer
abbreviation). -/
def cand_theta (atan2 : α → α → α) (pi : α) (d : ℕ) (params : List α)
    (gens : List String) (cost : List α → List String → α) (M0 : α) : α :=
  commit pi (cand_a atan2 pi d params gens cost M0)

/-- Cost value returned by `rotosolve`, i.e. the oracle evaluated at
the committed configuration (proof-layer abbreviation). -/
def cand_cost (atan2 : α → α → α) (pi : α) (d : ℕ) (params : List α)
    (gens : List String) (cost : List α → List String → α) (M0 : α) : α :=
  cost (params.set d (cand_theta atan2 pi d params gens cost M0)) gens

end Core

/-- Real-number model of `np.arctan2(y, x)`: the argument of the
complex number `x + y*I`, which lies in `(-π, π]`. -/
noncomputable def ratan2 (y x : ℝ) : ℝ := Complex.arg ⟨x, y⟩

section SetLemmas

variable {β : Type}

theorem set_getD_same (l : List β) (d : ℕ) (a x : β) (h : d < l.length) :
    (l.set d a).getD d x = a := by
  simp [List.getD_eq_getElem?_getD, List.getElem?_set_self h]

theorem set_getD_other (l : List β) (d e : ℕ) (a x : β) (h : e ≠ d) :
    (l.set d a).getD e x = l.getD e x := by
  simp [List.getD_eq_getElem?_getD, List.getElem?_set_ne (Ne.symm h)]

end SetLemmas

section CoreLemmas

variable {α : Type} [LinearOrderedField α]

theorem opt_theta_eq (atan2 : α → α → α) (pi : α) (d : ℕ) (params : List α)
    (cost : List α → α) :
    opt_theta atan2 pi d params cost =
      (params.set d (commit pi (atan2
          (2 * cost (params.set d 0) - cost (params.set d (pi / 2)) -
            cost (params.set d (-(pi / 2))))
          (cost (params.set d (pi / 2)) - cost (params.set d (-(pi / 2)))))),
       [params.set d 0, params.set d (pi / 2), params.set d (-(pi / 2))]) := by
  by_cases h : -(pi / 2) - atan2
      (2 * cost (params.set d 0) - cost (params.set d (pi / 2)) -
        cost (params.set d (-(pi / 2))))
      (cost (params.set d (pi / 2)) - cost (params.set d (-(pi / 2)))) ≤ -pi <;>
    simp [opt_theta, commit, List.set_set, h]

theorem rotosolve_eq (atan2 : α → α → α) (pi : α) (d : ℕ) (params : List α)
    (gens : List String) (cost : List α → List String → α) (M0 : α) :
    rotosolve atan2 pi d params gens cost M0 =
      (params.set d (cand_theta atan2 pi d params gens cost M0),
       cand_cost atan2 pi d params gens cost M0,
       [(params.set d (pi / 2), gens), (params.set d (-(pi / 2)), gens),
        (params.set d (cand_theta atan2 pi d params gens cost M0), gens)]) := by
  simp only [rotosolve, cand_cost, cand_theta, cand_a, commit, List.set_set]
  split <;> rename_i h <;> simp [h, List.set_set]

theorem cand_a_set (atan2 : α → α → α) (pi : α) (d : ℕ) (params : List α)
    (gens : List String) (cost : List α → List String → α) (M0 w : α) :
    cand_a atan2 pi d (params.set d w) gens cost M0 =
      cand_a atan2 pi d params gens cost M0 := by
  simp [cand_a, List.set_set]

theorem cand_theta_set (atan2 : α → α → α) (pi : α) (d : ℕ) (params : List α)
    (gens : List String) (cost : List α → List String → α) (M0 w : α) :
    cand_theta atan2 pi d (params.set d w) gens cost M0 =
      cand_theta atan2 pi d params gens cost M0 := by
  simp [cand_theta, cand_a_set]

theorem cand_cost_set (atan2 : α → α → α) (pi : α) (d : ℕ) (params : List α)
    (gens : List String) (cost : List α → List String → α) (M0 w : α) :
    cand_cost atan2 pi d (params.set d w) gens cost M0 =
      cand_cost atan2 pi d params gens cost M0 := by
  simp [cand_cost, cand_theta_set, List.set_set]

theorem helper_trace_len (atan2 : α → α → α) (pi : α) (d : ℕ) (params : List α)
    (gens : List String) (cost : List α → List String → α) :
    (optimal_theta_and_gen_helper atan2 pi d params gens cost).callArgs.length = 10 := by
  simp [optimal_theta_and_gen_helper, rotosolve_eq]

theorem helper_trace_head (atan2 : α → α → α) (pi : α) (d : ℕ) (params : List α)
    (gens : List String) (cost : List α → List String → α) :
    (optimal_theta_and_gen_helper atan2 pi d params gens cost).callArgs.head? =
      some (params.set d 0, gens) := by
  simp [optimal_theta_and_gen_helper]

theorem helper_gens_eq (atan2 : α → α → α) (pi : α) (d : ℕ) (params : List α)
    (gens : List String) (cost : List α → List String → α) :
    (optimal_theta_and_gen_helper atan2 pi d params gens cost).gens =
      gens.set d "Z" := by
  simp [optimal_theta_and_gen_helper, List.set_set]

theorem helper_params_eq (atan2 : α → α → α) (pi : α) (d : ℕ) (params : List α)
    (gens : List String) (cost : List α → List String → α) :
    (optimal_theta_and_gen_helper atan2 pi d params gens cost).params =
      params.set d
        (cand_theta atan2 pi d params ((gens.set d "X").set d "Y" |>.set d "Z") cost
          (cost (params.set d 0) gens)) := by
  simp [optimal_theta_and_gen_helper, rotosolve_eq, List.set_set, cand_theta_set]

theorem helper_params_len (atan2 : α → α → α) (pi : α) (d : ℕ) (params : List α)
    (gens : List String) (cost : List α → List String → α) :
    (optimal_theta_and_gen_helper atan2 pi d params gens cost).params.length =
      params.length := by
  rw [helper_params_eq]; simp

theorem helper_params_getD_ne (atan2 : α → α → α) (pi : α) (d : ℕ) (params : List α)
    (gens : List String) (cost : List α → List String → α) (e : ℕ) (x : α)
    (h : e ≠ d) :
    (optimal_theta_and_gen_helper atan2 pi d params gens cost).params.getD e x =
      params.getD e x := by
  rw [helper_params_eq, set_getD_other _ _ _ _ _ h]

theorem helper_opt_gen (atan2 : α → α → α) (pi : α) (d : ℕ) (params : List α)
    (gens : List String) (cost : List α → List String → α) (hd : d < params.length) :
    (let M0 := cost (params.set d 0) gens
     let tX := cand_theta atan2 pi d params (gens.set d "X") cost M0
     let cX := cand_cost atan2 pi d params (gens.set d "X") cost M0
     let tY := cand_theta atan2 pi d params (gens.set d "Y") cost M0
     let cY := cand_cost atan2 pi d params (gens.set d "Y") cost M0
     let tZ := cand_theta atan2 pi d params (gens.set d "Z") cost M0
     let cZ := cand_cost atan2 pi d params (gens.set d "Z") cost M0
     (optimal_theta_and_gen_helper atan2 pi d params gens cost).opt_d =
       (if cZ ≤ (if cY ≤ cX then cY else cX) then tZ
        else if cY ≤ cX then tY else tX) ∧
     (optimal_theta_and_gen_helper atan2 pi d params gens cost).gen_d =
       (if cZ ≤ (if cY ≤ cX then cY else cX) then "Z"
        else if cY ≤ cX then "Y" else "X")) := by
  simp only [optimal_theta_and_gen_helper, rotosolve_eq, List.set_set, cand_theta_set,
    cand_cost_set, set_getD_same _ _ _ _ (by simpa using hd), List.length_set]
  constructor <;> (split <;> rename_i h1 <;> [skip; split] <;> simp_all) <;>
    (split <;> simp_all)

end CoreLemmas

theorem ratan2_mem_Ioc (y x : ℝ) : ratan2 y x ∈ Set.Ioc (-Real.pi) Real.pi :=
  Complex.arg_mem_Ioc _

theorem commit_mem_Ioc (a : ℝ) (ha : a ∈ Set.Ioc (-Real.pi) Real.pi) :
    commit Real.pi a ∈ Set.Ioc (-Real.pi) Real.pi := by
  have hpi := Real.pi_pos
  obtain ⟨h1, h2⟩ := ha
  unfold commit
  split <;> exact ⟨by linarith, by linarith⟩

theorem cand_theta_mem (d : ℕ) (params : List ℝ) (gens : List String)
    (cost : List ℝ → List String → ℝ) (M0 : ℝ) :
    cand_theta ratan2 Real.pi d params gens cost M0 ∈ Set.Ioc (-Real.pi) Real.pi :=
  commit_mem_Ioc _ (ratan2_mem_Ioc _ _)

theorem helper_opt_mem (d : ℕ) (params : List ℝ) (gens : List String)
    (cost : List ℝ → List String → ℝ) (hd : d < params.length) :
    (optimal_theta_and_gen_helper ratan2 Real.pi d params gens cost).opt_d ∈
      Set.Ioc (-Real.pi) Real.pi := by
  rw [(helper_opt_gen ratan2 Real.pi d params gens cost hd).1]
  repeat' split
  all_goals exact cand_theta_mem _ _ _ _ _

section Fold

variable {σ β : Type}

theorem foldl_proj_length (step : σ → ℕ → σ) (proj : σ → List β)
    (hlen : ∀ s d, (proj (step s d)).length = (proj s).length) :
    ∀ (L : List ℕ) (s : σ), (proj (L.foldl step s)).length = (proj s).length := by
  intro L
  induction L with
  | nil => intro s; rfl
  | cons a t ih => intro s; rw [List.foldl_cons, ih, hlen]

theorem foldl_proj_untouched (step : σ → ℕ → σ) (proj : σ → List β) (x : β)
    (hne : ∀ s d e, e ≠ d → (proj (step s d)).getD e x = (proj s).getD e x) :
    ∀ (L : List ℕ) (s : σ) (e : ℕ), e ∉ L →
      (proj (L.foldl step s)).getD e x = (proj s).getD e x := by
  intro L
  induction L with
  | nil => intro s e _; rfl
  | cons a t ih =>
    intro s e he
    rw [List.foldl_cons, ih _ _ (fun h => he (List.mem_cons_of_mem a h)),
      hne s a e (fun h => he (h ▸ List.mem_cons_self a t))]

theorem foldl_proj_mem (P : β → Prop) (step : σ → ℕ → σ) (proj : σ → List β) (x : β)
    (hlen : ∀ s d, (proj (step s d)).length = (proj s).length)
    (hne : ∀ s d e, e ≠ d → (proj (step s d)).getD e x = (proj s).getD e x)
    (hset : ∀ s d, d < (proj s).length → P ((proj (step s d)).getD d x)) :
    ∀ (L : List ℕ) (s : σ) (d : ℕ), d ∈ L → d < (proj s).length →
      P ((proj (L.foldl step s)).getD d x) := by
  intro L
  induction L with
  | nil => intro s d h; cases h
  | cons a t ih =>
    intro s d hd hlt
    rw [List.foldl_cons]
    by_cases hmem : d ∈ t
    · exact ih _ _ hmem (by rw [hlen]; exact hlt)
    · have hda : d = a := by
        rcases List.mem_cons.mp hd with h | h
        · exact h
        · exact absurd h hmem
      subst hda
      rw [foldl_proj_untouched step proj x hne t _ d hmem]
      exact hset s d hlt

end Fold

theorem getD_eq_getElem_of_lt {β : Type} (l : List β) (i : ℕ) (x : β)
    (h : i < l.length) : l.getD i x = l[i] := by
  simp [List.getD_eq_getElem?_getD, List.getElem?_eq_getElem h]

theorem opt_step_len (cost : List ℝ → ℝ) (p : List ℝ) (d : ℕ) :
    ((opt_theta ratan2 Real.pi d p cost).1).length = p.length := by
  rw [opt_theta_eq]; simp

theorem opt_step_ne (cost : List ℝ → ℝ) (p : List ℝ) (d e : ℕ) (h : e ≠ d) :
    ((opt_theta ratan2 Real.pi d p cost).1).getD e 0 = p.getD e 0 := by
  rw [opt_theta_eq]; exact set_getD_other _ _ _ _ _ h

theorem opt_step_mem (cost : List ℝ → ℝ) (p : List ℝ) (d : ℕ) (hd : d < p.length) :
    ((opt_theta ratan2 Real.pi d p cost).1).getD d 0 ∈
      Set.Ioc (-Real.pi) Real.pi := by
  rw [opt_theta_eq]
  rw [set_getD_same _ _ _ _ hd]
  exact commit_mem_Ioc _ (ratan2_mem_Ioc _ _)

theorem rotosolve_cycle_mem (cost : List ℝ → ℝ) (params : List ℝ) :
    ∀ v ∈ rotosolve_cycle ratan2 Real.pi cost params,
      v ∈ Set.Ioc (-Real.pi) Real.pi := by
  intro v hv
  obtain ⟨i, hlen, rfl⟩ := List.mem_iff_getElem.mp hv
  have hcyc : (rotosolve_cycle ratan2 Real.pi cost params).length = params.length :=
    foldl_proj_length _ id (fun s d => opt_step_len cost s d) _ params
  have hip : i < params.length := by rw [← hcyc]; exact hlen
  rw [← getD_eq_getElem_of_lt _ _ 0 hlen]
  exact foldl_proj_mem (· ∈ Set.Ioc (-Real.pi) Real.pi)
    (fun p d => (opt_theta ratan2 Real.pi d p cost).1) id 0
    (fun s d => opt_step_len cost s d)
    (fun s d e he => opt_step_ne cost s d e he)
    (fun s d hd => opt_step_mem cost s d hd)
    (List.range params.length) params i (List.mem_range.mpr hip) hip

theorem rsel_step_len (cost : List ℝ → List String → ℝ)
    (pg : List ℝ × List String) (d : ℕ) :
    ((rsel_step ratan2 Real.pi cost pg d).1).length = pg.1.length := by
  simp [rsel_step, helper_params_len]

theorem rsel_step_ne (cost : List ℝ → List String → ℝ)
    (pg : List ℝ × List String) (d e : ℕ) (h : e ≠ d) :
    ((rsel_step ratan2 Real.pi cost pg d).1).getD e 0 = pg.1.getD e 0 := by
  simp only [rsel_step]
  rw [set_getD_other _ _ _ _ _ h, helper_params_getD_ne _ _ _ _ _ _ _ _ h]

theorem rsel_step_mem (cost : List ℝ → List String → ℝ)
    (pg : List ℝ × List String) (d : ℕ) (hd : d < pg.1.length) :
    ((rsel_step ratan2 Real.pi cost pg d).1).getD d 0 ∈
      Set.Ioc (-Real.pi) Real.pi := by
  simp only [rsel_step]
  rw [set_getD_same _ _ _ _ (by rw [helper_params_len]; exact hd)]
  exact helper_opt_mem _ _ _ _ hd

theorem rotoselect_cycle_mem (cost : List ℝ → List String → ℝ)
    (params : List ℝ) (gens : List String) :
    ∀ v ∈ (rotoselect_cycle ratan2 Real.pi cost params gens).1,
      v ∈ Set.Ioc (-Real.pi) Real.pi := by
  intro v hv
  obtain ⟨i, hlen, rfl⟩ := List.mem_iff_getElem.mp hv
  have hcyc : ((rotoselect_cycle ratan2 Real.pi cost params gens).1).length =
      params.length :=
    foldl_proj_length _ Prod.fst (fun s d => rsel_step_len cost s d) _ (params, gens)
  have hip : i < params.length := by rw [← hcyc]; exact hlen
  rw [← getD_eq_getElem_of_lt _ _ 0 hlen]
  exact foldl_proj_mem (· ∈ Set.Ioc (-Real.pi) Real.pi)
    (rsel_step ratan2 Real.pi cost) Prod.fst 0
    (fun s d => rsel_step_len cost s d)
    (fun s d e he => rsel_step_ne cost s d e he)
    (fun s d hd => rsel_step_mem cost s d hd)
    (List.range params.length) (params, gens) i (List.mem_range.mpr hip) hip

theorem opt_theta_trace_len {α : Type} [LinearOrderedField α] (atan2 : α → α → α)
    (pi : α) (d : ℕ) (params : List α) (cost : List α → α) :
    ((opt_theta atan2 pi d params cost).2).length = 3 := by
  rw [opt_theta_eq]
  rfl

theorem rotosolve_trace_len {α : Type} [LinearOrderedField α] (atan2 : α → α → α)
    (pi : α) (d : ℕ) (params : List α) (gens : List String)
    (cost : List α → List String → α) (M0 : α) :
    ((rotosolve atan2 pi d params gens cost M0).2.2).length = 3 := by
  rw [rotosolve_eq]
  rfl

/-- C1: for every index `d` in `[0, D)`, parameter vector and cost
oracle, the parameter update rule computes
`a = atan2(2*M0 - M_plus - M_minus, M_plus - M_minus)` from the oracle
values at `params[d] = 0`, `π/2`, `-π/2` (all other entries fixed,
since the probe vectors are `params.set d _`), sets `params[d]` to
`-π/2 - a`, and adds `2π` to `params[d]` exactly when `-π/2 - a` is at
or below `-π`.  The first conjunct covers `opt_theta` (which computes
its own baseline `M0`); the second covers the `rotosolve` variant with
a supplied baseline `M0`. -/
theorem c1_update_rule {α : Type} [LinearOrderedField α] (atan2 : α → α → α)
    (pi : α) (d : ℕ) (params : List α) (cost1 : List α → α) (gens : List String)
    (cost2 : List α → List String → α) (M0 : α) (hd : d < params.length) :
    ((opt_theta atan2 pi d params cost1).1 =
      params.set d
        (if -(pi / 2) - atan2
              (2 * cost1 (params.set d 0) - cost1 (params.set d (pi / 2)) -
                cost1 (params.set d (-(pi / 2))))
              (cost1 (params.set d (pi / 2)) - cost1 (params.set d (-(pi / 2)))) ≤
            -pi then
          -(pi / 2) - atan2
              (2 * cost1 (params.set d 0) - cost1 (params.set d (pi / 2)) -
                cost1 (params.set d (-(pi / 2))))
              (cost1 (params.set d (pi / 2)) - cost1 (params.set d (-(pi / 2)))) +
            2 * pi
        else
          -(pi / 2) - atan2
            (2 * cost1 (params.set d 0) - cost1 (params.set d (pi / 2)) -
              cost1 (params.set d (-(pi / 2))))
            (cost1 (params.set d (pi / 2)) - cost1 (params.set d (-(pi / 2)))))) ∧
    ((rotosolve atan2 pi d params gens cost2 M0).1 =
      params.set d
        (if -(pi / 2) - atan2
              (2 * M0 - cost2 (params.set d (pi / 2)) gens -
                cost2 (params.set d (-(pi / 2))) gens)
              (cost2 (params.set d (pi / 2)) gens -
                cost2 (params.set d (-(pi / 2))) gens) ≤ -pi then
          -(pi / 2) - atan2
              (2 * M0 - cost2 (params.set d (pi / 2)) gens -
                cost2 (params.set d (-(pi / 2))) gens)
              (cost2 (params.set d (pi / 2)) gens -
                cost2 (params.set d (-(pi / 2))) gens) + 2 * pi
        else
          -(pi / 2) - atan2
            (2 * M0 - cost2 (params.set d (pi / 2)) gens -
              cost2 (params.set d (-(pi / 2))) gens)
            (cost2 (params.set d (pi / 2)) gens -
              cost2 (params.set d (-(pi / 2))) gens))) := by
  constructor
  · rw [opt_theta_eq]
    rfl
  · rw [rotosolve_eq]
    rfl

/-- Witness for C1 at a concrete rational input: with a toy
two-argument arctangent `fun y x => y - x`, "π" = 4, `params = [1]`,
the constant-zero oracle and `d = 0`, the rule computes `a = 0`,
`v = -2`, the normalisation branch is not taken (`-2 > -4`), and the
rule commits `params = [-2]`. -/
theorem c1_update_rule_witness :
    (0 : ℕ) < ([(1 : ℚ)]).length ∧
      (opt_theta (fun y x => y - x) (4 : ℚ) 0 [(1 : ℚ)] (fun _ => 0)).1 =
        [(-2 : ℚ)] := by
  refine ⟨by decide, ?_⟩
  have h := (c1_update_rule (fun y x => y - x) (4 : ℚ) 0 [(1 : ℚ)]
    (fun _ => 0) [] (fun _ _ => 0) 0 (by decide)).1
  exact h.trans (by norm_num)

/-- C2 counterexample: at a concrete input (one parameter, constant
zero oracle), one per-index pass of `optimal_theta_and_gen_helper`
invokes the cost oracle 10 times, not 7: the shared baseline plus, for
each of the 3 candidate generators, 2 probe evaluations and 1 further
evaluation of the cost at the committed angle (the value `rotosolve`
returns for the candidate comparison). -/
theorem c2_seven_calls_counterexample :
    (optimal_theta_and_gen_helper (fun _ _ => (0 : ℚ)) 4 0 [0] ["X"]
        (fun _ _ => 0)).callArgs.length = 10 ∧
      ¬ (optimal_theta_and_gen_helper (fun _ _ => (0 : ℚ)) 4 0 [0] ["X"]
          (fun _ _ => 0)).callArgs.length = 7 := by
  refine ⟨helper_trace_len _ _ _ _ _ _, ?_⟩
  rw [helper_trace_len]
  decide

/-- C2 amended: for every parameter vector and generator assignment,
one per-index pass of RotoselectCycle performs exactly 10 cost-oracle
calls: 1 shared baseline evaluation at `params[d] = 0` plus, for each
of the 3 candidate generators, 2 probe evaluations (at `±π/2`) and 1
evaluation at the committed angle used to compare candidates.  The
first oracle call is the baseline at `params[d] = 0`. -/
theorem c2_ten_calls {α : Type} [LinearOrderedField α] (atan2 : α → α → α)
    (pi : α) (d : ℕ) (params : List α) (gens : List String)
    (cost : List α → List String → α) :
    (optimal_theta_and_gen_helper atan2 pi d params gens cost).callArgs.length = 10 ∧
      (optimal_theta_and_gen_helper atan2 pi d params gens cost).callArgs.head? =
        some (params.set d 0, gens) :=
  ⟨helper_trace_len atan2 pi d params gens cost,
   helper_trace_head atan2 pi d params gens cost⟩

/-- C3 counterexample: at a concrete input, `rotosolve` (the update
rule with a precomputed `M0`) invokes the cost oracle 3 times, not 2:
two probes plus the final evaluation at the committed configuration
whose value it returns. -/
theorem c3_two_calls_counterexample :
    ((rotosolve (fun _ _ => (0 : ℚ)) 4 0 [0] ["X"] (fun _ _ => 0) 0).2.2).length = 3 ∧
      ¬ ((rotosolve (fun _ _ => (0 : ℚ)) 4 0 [0] ["X"]
          (fun _ _ => 0) 0).2.2).length = 2 := by
  refine ⟨rotosolve_trace_len _ _ _ _ _ _ _, ?_⟩
  rw [rotosolve_trace_len]
  decide

/-- C3 amended: for every index `d` and every call, the update rule
invokes the cost oracle exactly 3 times in both variants: when `M0` is
supplied (`rotosolve`) it makes 2 probe calls plus 1 evaluation at the
committed configuration, and when `M0` is not supplied (`opt_theta`)
it makes the baseline call plus 2 probe calls. -/
theorem c3_call_counts {α : Type} [LinearOrderedField α] (atan2 : α → α → α)
    (pi : α) (d : ℕ) (params : List α) (gens : List String)
    (cost1 : List α → α) (cost2 : List α → List String → α) (M0 : α) :
    ((rotosolve atan2 pi d params gens cost2 M0).2.2).length = 3 ∧
      ((opt_theta atan2 pi d params cost1).2).length = 3 :=
  ⟨rotosolve_trace_len atan2 pi d params gens cost2 M0,
   opt_theta_trace_len atan2 pi d params cost1⟩

/-- C8 counterexample: the `RGen` dispatch, given a tag outside
`{X, Y, Z}`, does not fail: the `if/elif/elif` chain has no `else`
branch, so the call silently queues no gate at all (the identity
fallback the claim rules out). -/
theorem c8_invalid_generator_counterexample :
    RGen (1 : ℚ) "W" 0 = [] := by
  decide

/-- C8 amended: for every generator tag outside `{X, Y, Z}` passed
into the per-generator gate dispatch, `RGen` silently applies no gate
(an identity fallback): no branch of the dispatch fires, no error is
raised, and the queued operation list is empty. -/
theorem c8_invalid_generator {α : Type} (param : α) (wires : ℕ) (g : String)
    (hx : g ≠ "X") (hy : g ≠ "Y") (hz : g ≠ "Z") :
    RGen param g wires = [] := by
  simp [RGen, hx, hy, hz]

/-- Witness for the amended C8 at a concrete invalid tag. -/
theorem c8_invalid_generator_witness :
    RGen (2 : ℚ) "A" 1 = [] :=
  c8_invalid_generator 2 1 "A" (by decide) (by decide) (by decide)

theorem select_tie {α : Type} [LinearOrder α] (cX cY cZ : α)
    (h1 : cX = cY) (h2 : cY = cZ) :
    (if cZ ≤ (if cY ≤ cX then cY else cX) then "Z"
     else if cY ≤ cX then "Y" else "X") = "Z" := by
  subst h1
  subst h2
  simp

/-- C4: in the per-index generator search, candidates are tried in the
fixed order X, Y, Z with X as the initial incumbent, and a later
candidate replaces the incumbent exactly when its resulting cost is
`≤` the incumbent's cost — so the selected generator is `Z` when
`cZ ≤ min cX cY`, else `Y` when `cY ≤ cX`, else `X`; in particular,
when all 3 candidate costs are equal the selected generator is "Z". -/
theorem c4_tie_break {α : Type} [LinearOrderedField α] (atan2 : α → α → α)
    (pi : α) (d : ℕ) (params : List α) (gens : List String)
    (cost : List α → List String → α) (hd : d < params.length) :
    (let M0 := cost (params.set d 0) gens
     let cX := cand_cost atan2 pi d params (gens.set d "X") cost M0
     let cY := cand_cost atan2 pi d params (gens.set d "Y") cost M0
     let cZ := cand_cost atan2 pi d params (gens.set d "Z") cost M0
     ((optimal_theta_and_gen_helper atan2 pi d params gens cost).gen_d =
       if cZ ≤ (if cY ≤ cX then cY else cX) then "Z"
       else if cY ≤ cX then "Y" else "X") ∧
     (cX = cY → cY = cZ →
       (optimal_theta_and_gen_helper atan2 pi d params gens cost).gen_d = "Z")) := by
  refine ⟨(helper_opt_gen atan2 pi d params gens cost hd).2,
    fun h1 h2 => ((helper_opt_gen atan2 pi d params gens cost hd).2).trans
      (select_tie _ _ _ h1 h2)⟩

/-- Witness for C4: with a constant-zero oracle all three candidate
costs coincide, and the helper selects generator "Z". -/
theorem c4_tie_break_witness :
    (optimal_theta_and_gen_helper (fun _ _ => (0 : ℚ)) 4 0 [0] ["X"]
      (fun _ _ => 0)).gen_d = "Z" := by
  have h := c4_tie_break (fun _ _ => (0 : ℚ)) 4 0 [0] ["X"] (fun _ _ => 0) (by decide)
  exact h.2 rfl rfl

/-- C5: for every parameter vector, generator assignment and cost
oracle, the parameter value committed by the update rule at an
in-range index lies in `(-π, π]` (first two conjuncts: `opt_theta` and
`rotosolve`), and after one full cycle — Rotosolve or Rotoselect —
every entry of the parameter vector lies in `(-π, π]` (last two
conjuncts). -/
theorem c5_range_invariant (params : List ℝ) (cost1 : List ℝ → ℝ)
    (cost2 : List ℝ → List String → ℝ) (gens : List String) (d : ℕ) (M0 : ℝ)
    (hd : d < params.length) :
    ((opt_theta ratan2 Real.pi d params cost1).1.getD d 0 ∈
        Set.Ioc (-Real.pi) Real.pi) ∧
      ((rotosolve ratan2 Real.pi d params gens cost2 M0).1.getD d 0 ∈
        Set.Ioc (-Real.pi) Real.pi) ∧
      (∀ v ∈ rotosolve_cycle ratan2 Real.pi cost1 params,
        v ∈ Set.Ioc (-Real.pi) Real.pi) ∧
      (∀ v ∈ (rotoselect_cycle ratan2 Real.pi cost2 params gens).1,
        v ∈ Set.Ioc (-Real.pi) Real.pi) := by
  refine ⟨opt_step_mem cost1 params d hd, ?_, rotosolve_cycle_mem cost1 params,
    rotoselect_cycle_mem cost2 params gens⟩
  simpa [rotosolve_eq, set_getD_same, hd] using cand_theta_mem d params gens cost2 M0

/-- Witness for C5 at a concrete real input. -/
theorem c5_range_invariant_witness :
    ((opt_theta ratan2 Real.pi 0 [(1 : ℝ) / 2] (fun _ => 0)).1.getD 0 0 ∈
        Set.Ioc (-Real.pi) Real.pi) ∧
      ((rotosolve ratan2 Real.pi 0 [(1 : ℝ) / 2] [] (fun _ _ => 0) 0).1.getD 0 0 ∈
        Set.Ioc (-Real.pi) Real.pi) ∧
      (∀ v ∈ rotosolve_cycle ratan2 Real.pi (fun _ => 0) [(1 : ℝ) / 2],
        v ∈ Set.Ioc (-Real.pi) Real.pi) ∧
      (∀ v ∈ (rotoselect_cycle ratan2 Real.pi (fun _ _ => 0) [(1 : ℝ) / 2] []).1,
        v ∈ Set.Ioc (-Real.pi) Real.pi) :=
  c5_range_invariant [(1 : ℝ) / 2] (fun _ => 0) (fun _ _ => 0) [] 0 0 (by decide)

theorem costs_rotosolve_eq {α : Type} [LinearOrderedField α] (atan2 : α → α → α)
    (pi : α) (cost : List α → α) :
    ∀ (n : ℕ) (params : List α),
      costs_rotosolve atan2 pi cost n params =
        (((List.range n).map fun i =>
            cost ((rotosolve_cycle atan2 pi cost)^[i] params)),
         (rotosolve_cycle atan2 pi cost)^[n] params) := by
  intro n
  induction n with
  | zero => intro params; rfl
  | succ m ih =>
    intro params
    simp only [costs_rotosolve, ih]
    rw [Prod.mk.injEq]
    constructor
    · simp [List.range_succ_eq_map, Function.iterate_succ_apply, List.map_map,
        Function.comp]
    · simp [Function.iterate_succ_apply]

theorem costs_rsel_eq {α : Type} [LinearOrderedField α] (atan2 : α → α → α)
    (pi : α) (cost : List α → List String → α) :
    ∀ (n : ℕ) (pg : List α × List String),
      costs_rsel atan2 pi cost n pg =
        (((List.range n).map fun i =>
            cost ((fun q : List α × List String =>
                rotoselect_cycle atan2 pi cost q.1 q.2)^[i] pg).1
              ((fun q : List α × List String =>
                rotoselect_cycle atan2 pi cost q.1 q.2)^[i] pg).2),
         (fun q : List α × List String =>
           rotoselect_cycle atan2 pi cost q.1 q.2)^[n] pg) := by
  intro n
  induction n with
  | zero => intro pg; rfl
  | succ m ih =>
    intro pg
    simp only [costs_rsel, ih]
    rw [Prod.mk.injEq]
    constructor
    · simp [List.range_succ_eq_map, Function.iterate_succ_apply, List.map_map,
        Function.comp]
    · simp [Function.iterate_succ_apply]

/-- C6: for every `nSteps ≥ 0`, the optimization loop records exactly
`nSteps` cost entries, the `i`-th being the oracle cost of the state
before the `i`-th cycle (the `i`-fold cycle iterate of the initial
state); the post-final-cycle cost is not appended, and the final state
is always the `nSteps`-fold iterate — i.e. no convergence check or
early termination exists.  Stated for both the Rotosolve and the
Rotoselect driver loops. -/
theorem c6_trajectory {α : Type} [LinearOrderedField α] (atan2 : α → α → α)
    (pi : α) (cost1 : List α → α) (cost2 : List α → List String → α) (n : ℕ)
    (params : List α) (pg : List α × List String) :
    (costs_rotosolve atan2 pi cost1 n params).1.length = n ∧
      costs_rotosolve atan2 pi cost1 n params =
        (((List.range n).map fun i =>
            cost1 ((rotosolve_cycle atan2 pi cost1)^[i] params)),
         (rotosolve_cycle atan2 pi cost1)^[n] params) ∧
      (costs_rsel atan2 pi cost2 n pg).1.length = n ∧
      costs_rsel atan2 pi cost2 n pg =
        (((List.range n).map fun i =>
            cost2 ((fun q : List α × List String =>
                rotoselect_cycle atan2 pi cost2 q.1 q.2)^[i] pg).1
              ((fun q : List α × List String =>
                rotoselect_cycle atan2 pi cost2 q.1 q.2)^[i] pg).2),
         (fun q : List α × List String =>
           rotoselect_cycle atan2 pi cost2 q.1 q.2)^[n] pg) := by
  refine ⟨?_, costs_rotosolve_eq atan2 pi cost1 n params, ?_,
    costs_rsel_eq atan2 pi cost2 n pg⟩
  · rw [costs_rotosolve_eq]
    simp
  · rw [costs_rsel_eq]
    simp

/-- C7: for every cost oracle that is (along the `d`-th axis, all
other entries fixed) a sinusoid of period `2π`, applying the parameter
update rule twice in a row to the same index `d`, with no other
parameter changed in between, commits the same value of `params[d]`
both times. -/
theorem c7_idempotent (d : ℕ) (params : List ℝ) (cost : List ℝ → ℝ)
    (A B C : ℝ)
    (hsin : ∀ θ : ℝ, cost (params.set d θ) =
      A * Real.sin θ + B * Real.cos θ + C) :
    ((opt_theta ratan2 Real.pi d
        ((opt_theta ratan2 Real.pi d params cost).1) cost).1).getD d 0 =
      ((opt_theta ratan2 Real.pi d params cost).1).getD d 0 := by
  simp [opt_theta_eq, List.set_set]

/-- Witness for C7 with the oracle `sin(params[0])`, a sinusoid with
`A = 1`, `B = 0`, `C = 0`. -/
theorem c7_idempotent_witness :
    ((opt_theta ratan2 Real.pi 0
        ((opt_theta ratan2 Real.pi 0 [(1 : ℝ) / 2]
          (fun p => Real.sin (p.getD 0 0))).1)
        (fun p => Real.sin (p.getD 0 0))).1).getD 0 0 =
      ((opt_theta ratan2 Real.pi 0 [(1 : ℝ) / 2]
        (fun p => Real.sin (p.getD 0 0))).1).getD 0 0 :=
  c7_idempotent 0 [(1 : ℝ) / 2] (fun p => Real.sin (p.getD 0 0)) 1 0 0
    (by intro θ; simp)

/-- C9 counterexample: at a concrete input (`D = 1`, `d = -1`), the
index is outside `[0, D)`, yet the call does not fail: NumPy's
negative indexing wraps `-1` to the last entry, so the update runs
exactly as it would for `d = 0`. -/
theorem c9_invalid_index_counterexample :
    ((-1 : ℤ) < 0) ∧
      opt_theta_ix (fun _ _ => (0 : ℚ)) 4 (-1) [(0 : ℚ)] (fun _ => 0) =
        some ((opt_theta (fun _ _ => (0 : ℚ)) 4 0 [(0 : ℚ)] (fun _ => 0)).1) :=
  ⟨by decide, rfl⟩

/-- C9 amended: for a length-`D` parameter vector, the update rule
fails loudly (raises `IndexError`, modelled as `none`) exactly when
`d ≥ D` or `d < -D`; for `-D ≤ d < 0` the index silently wraps to
`D + d` (Python negative indexing) and the update is accepted, and for
`0 ≤ d < D` it runs normally. -/
theorem c9_index_semantics {α : Type} [LinearOrderedField α] (atan2 : α → α → α)
    (pi : α) (d : ℤ) (params : List α) (cost : List α → α) :
    (opt_theta_ix atan2 pi d params cost = none ↔
      ((params.length : ℤ) ≤ d ∨ d < -(params.length : ℤ))) ∧
      (-(params.length : ℤ) ≤ d → d < 0 →
        opt_theta_ix atan2 pi d params cost =
          some ((opt_theta atan2 pi (d + params.length).toNat params cost).1)) ∧
      (0 ≤ d → d < (params.length : ℤ) →
        opt_theta_ix atan2 pi d params cost =
          some ((opt_theta atan2 pi d.toNat params cost).1)) := by
  unfold opt_theta_ix npIndex
  by_cases h0 : 0 ≤ d
  · by_cases h1 : d < (params.length : ℤ)
    · rw [if_pos h0, if_pos h1]
      exact ⟨by simp; omega, fun _ hb => absurd hb (by omega), fun _ _ => rfl⟩
    · rw [if_pos h0, if_neg h1]
      exact ⟨by simp; omega, fun _ hb => absurd hb (by omega),
        fun _ hb => absurd hb h1⟩
  · by_cases h2 : -(params.length : ℤ) ≤ d
    · rw [if_neg h0, if_pos h2]
      exact ⟨by simp; omega, fun _ _ => rfl, fun ha _ => absurd ha h0⟩
    · rw [if_neg h0, if_neg h2]
      exact ⟨by simp; omega, fun ha _ => absurd ha h2, fun ha _ => absurd ha h0⟩

/-- Witness for the amended C9: `d = -2` on a length-2 vector wraps to
index 0 and the update is silently accepted. -/
theorem c9_index_semantics_witness :
    opt_theta_ix (fun _ _ => (0 : ℚ)) 4 (-2) [(0 : ℚ), 1] (fun _ => 0) =
      some ((opt_theta (fun _ _ => (0 : ℚ)) 4
        ((-2 + (([(0 : ℚ), 1] : List ℚ).length : ℤ)).toNat) [(0 : ℚ), 1]
        (fun _ => 0)).1) :=
  (c9_index_semantics (fun _ _ => (0 : ℚ)) 4 (-2) [(0 : ℚ), 1]
    (fun _ => 0)).2.1 (by decide) (by decide)

/-- C10: after RotoselectCycle processes index `d`, entry `d` of the
parameter vector and of the generator assignment hold the winning
candidate's optimal angle and generator (`opt_d` / `gen_d` of the
helper, characterised by the incumbent search) — overwriting the
values the helper's in-place probing left there (those of the
last-probed candidate Z) — and every entry `e ≠ d` (in particular
every already-committed `e < d`) is left unchanged by the step. -/
theorem c10_commit_winner {α : Type} [LinearOrderedField α] (atan2 : α → α → α)
    (pi : α) (cost : List α → List String → α) (pg : List α × List String)
    (d : ℕ) (hd : d < pg.1.length) (hg : d < pg.2.length) :
    ((rsel_step atan2 pi cost pg d).1.getD d 0 =
        (optimal_theta_and_gen_helper atan2 pi d pg.1 pg.2 cost).opt_d ∧
      (rsel_step atan2 pi cost pg d).2.getD d "" =
        (optimal_theta_and_gen_helper atan2 pi d pg.1 pg.2 cost).gen_d) ∧
      ∀ e, e ≠ d →
        (rsel_step atan2 pi cost pg d).1.getD e 0 = pg.1.getD e 0 ∧
        (rsel_step atan2 pi cost pg d).2.getD e "" = pg.2.getD e "" := by
  refine ⟨⟨?_, ?_⟩, fun e he => ⟨?_, ?_⟩⟩
  · simp only [rsel_step]
    exact set_getD_same _ _ _ _ (by rw [helper_params_len]; exact hd)
  · simp only [rsel_step]
    exact set_getD_same _ _ _ _ (by rw [helper_gens_eq]; simpa using hg)
  · simp only [rsel_step]
    rw [set_getD_other _ _ _ _ _ he, helper_params_getD_ne _ _ _ _ _ _ _ _ he]
  · simp only [rsel_step]
    rw [set_getD_other _ _ _ _ _ he, helper_gens_eq, set_getD_other _ _ _ _ _ he]

/-- Witness for C10 at a concrete rational input. -/
theorem c10_commit_winner_witness :
    ((rsel_step (fun _ _ => (0 : ℚ)) 4 (fun _ _ => 0) ([0], ["X"]) 0).1.getD 0 0 =
        (optimal_theta_and_gen_helper (fun _ _ => (0 : ℚ)) 4 0 [0] ["X"]
          (fun _ _ => 0)).opt_d ∧
      (rsel_step (fun _ _ => (0 : ℚ)) 4 (fun _ _ => 0) ([0], ["X"]) 0).2.getD 0 "" =
        (optimal_theta_and_gen_helper (fun _ _ => (0 : ℚ)) 4 0 [0] ["X"]
          (fun _ _ => 0)).gen_d) ∧
      ∀ e, e ≠ 0 →
        (rsel_step (fun _ _ => (0 : ℚ)) 4 (fun _ _ => 0) ([0], ["X"]) 0).1.getD e 0 =
          [(0 : ℚ)].getD e 0 ∧
        (rsel_step (fun _ _ => (0 : ℚ)) 4 (fun _ _ => 0) ([0], ["X"]) 0).2.getD e "" =
          ["X"].getD e "" :=
  c10_commit_winner _ _ _ _ _ (by decide) (by decide)

end RotoselectDemo
